import Mathlib

/-!
Verification of the service-orchestration and MQTT messaging layer of the
motospect application, shallowly embedded from
`src/infrastructure/mqtt_service_bus.py` and
`src/infrastructure/service_manager.py`.

Python dictionaries are modelled as association lists with unique keys:
`dictInsert` mirrors `d[k] = v` (overwrite in place or append),
`dictGet` mirrors `d.get(k)`, `dictErase` mirrors `del d[k]`.
Nondeterministic effects (socket bind probes, HTTP health probes, process
spawning, response arrival) are modelled as explicit oracle parameters.
-/

set_option autoImplicit false

namespace Motospect

universe u v

/-- `dictGet k d` models Python `d.get(k)`. -/
def dictGet {α : Type u} (k : String) : List (String × α) → Option α
  | [] => none
  | (k2, v) :: rest => if k2 = k then some v else dictGet k rest

/-- `dictInsert k v d` models Python `d[k] = v`: overwrite the existing
entry in place, or append a new one. -/
def dictInsert {α : Type u} (k : String) (v : α) : List (String × α) → List (String × α)
  | [] => [(k, v)]
  | (k2, v2) :: rest => if k2 = k then (k, v) :: rest else (k2, v2) :: dictInsert k v rest

/-- `dictErase k d` models Python `del d[k]` (and is the identity when the
key is absent, matching a guarded delete). -/
def dictErase {α : Type u} (k : String) : List (String × α) → List (String × α)
  | [] => []
  | (k2, v) :: rest => if k2 = k then dictErase k rest else (k2, v) :: dictErase k rest

def dictKeys {α : Type u} (d : List (String × α)) : List String := d.map (·.1)

def dictValues {α : Type u} (d : List (String × α)) : List α := d.map (·.2)

section DictLemmas

variable {α : Type u} {β : Type v}

@[simp] theorem dictGet_nil (k : String) : dictGet (α := α) k [] = none := rfl

theorem dictGet_cons (k k2 : String) (v : α) (rest : List (String × α)) :
    dictGet k ((k2, v) :: rest) = if k2 = k then some v else dictGet k rest := rfl

theorem dictInsert_cons (k k2 : String) (v v2 : α) (rest : List (String × α)) :
    dictInsert k v ((k2, v2) :: rest) =
      if k2 = k then (k, v) :: rest else (k2, v2) :: dictInsert k v rest := rfl

theorem dictErase_cons (k k2 : String) (v : α) (rest : List (String × α)) :
    dictErase k ((k2, v) :: rest) =
      if k2 = k then dictErase k rest else (k2, v) :: dictErase k rest := rfl

@[simp] theorem dictKeys_nil : dictKeys (α := α) [] = [] := rfl

@[simp] theorem dictKeys_cons (k : String) (v : α) (d : List (String × α)) :
    dictKeys ((k, v) :: d) = k :: dictKeys d := rfl

@[simp] theorem dictValues_nil : dictValues (α := α) [] = [] := rfl

@[simp] theorem dictValues_cons (k : String) (v : α) (d : List (String × α)) :
    dictValues ((k, v) :: d) = v :: dictValues d := rfl

@[simp] theorem dictGet_dictErase_self (k : String) (d : List (String × α)) :
    dictGet k (dictErase k d) = none := by
  induction d with
  | nil => rfl
  | cons hd tl ih =>
    obtain ⟨k2, v⟩ := hd
    rw [dictErase_cons]
    by_cases h : k2 = k
    · rw [if_pos h]; exact ih
    · rw [if_neg h, dictGet_cons, if_neg h]; exact ih

theorem dictGet_dictErase_ne (k k2 : String) (d : List (String × α)) (h : k2 ≠ k) :
    dictGet k2 (dictErase k d) = dictGet k2 d := by
  induction d with
  | nil => rfl
  | cons hd tl ih =>
    obtain ⟨k3, v⟩ := hd
    rw [dictErase_cons, dictGet_cons]
    by_cases h3 : k3 = k
    · have h4 : k3 ≠ k2 := fun hh => h (hh.symm.trans h3)
      rw [if_pos h3, if_neg h4]; exact ih
    · rw [if_neg h3, dictGet_cons]
      by_cases h2 : k3 = k2
      · rw [if_pos h2, if_pos h2]
      · rw [if_neg h2, if_neg h2]; exact ih

@[simp] theorem dictGet_dictInsert_self (k : String) (v : α) (d : List (String × α)) :
    dictGet k (dictInsert k v d) = some v := by
  induction d with
  | nil => simp [dictInsert, dictGet]
  | cons hd tl ih =>
    obtain ⟨k2, v2⟩ := hd
    rw [dictInsert_cons]
    by_cases h : k2 = k
    · rw [if_pos h, dictGet_cons, if_pos rfl]
    · rw [if_neg h, dictGet_cons, if_neg h]; exact ih

theorem dictGet_dictInsert_ne (k k2 : String) (v : α) (d : List (String × α)) (h : k2 ≠ k) :
    dictGet k2 (dictInsert k v d) = dictGet k2 d := by
  induction d with
  | nil =>
    simp only [dictInsert, dictGet_cons, dictGet_nil]
    rw [if_neg (fun hh => h hh.symm)]
  | cons hd tl ih =>
    obtain ⟨k3, v3⟩ := hd
    rw [dictInsert_cons, dictGet_cons]
    by_cases h3 : k3 = k
    · have h4 : k3 ≠ k2 := fun hh => h (hh.symm.trans h3)
      rw [if_pos h3, dictGet_cons, if_neg (fun hh => h hh.symm), if_neg h4]
    · rw [if_neg h3, dictGet_cons]
      by_cases h2 : k3 = k2
      · rw [if_pos h2, if_pos h2]
      · rw [if_neg h2, if_neg h2]; exact ih

theorem dictInsert_of_not_mem_keys (k : String) (v : α) (d : List (String × α))
    (h : k ∉ dictKeys d) : dictInsert k v d = d ++ [(k, v)] := by
  induction d with
  | nil => rfl
  | cons hd tl ih =>
    obtain ⟨k2, v2⟩ := hd
    rw [dictKeys_cons, List.mem_cons] at h
    push_neg at h
    rw [dictInsert_cons, if_neg (fun hh => h.1 hh.symm), ih h.2, List.cons_append]

theorem dictErase_sublist (k : String) (d : List (String × α)) :
    List.Sublist (dictErase k d) d := by
  induction d with
  | nil => exact List.Sublist.refl _
  | cons hd tl ih =>
    obtain ⟨k2, v⟩ := hd
    rw [dictErase_cons]
    by_cases h : k2 = k
    · rw [if_pos h]; exact ih.cons _
    · rw [if_neg h]; exact ih.cons₂ _

theorem dictGet_mem_values (k : String) (v : α) (d : List (String × α))
    (h : dictGet k d = some v) : v ∈ dictValues d := by
  induction d with
  | nil => simp [dictGet] at h
  | cons hd tl ih =>
    obtain ⟨k2, v2⟩ := hd
    rw [dictGet_cons] at h
    rw [dictValues_cons]
    by_cases h2 : k2 = k
    · rw [if_pos h2] at h
      injection h with h
      exact h ▸ List.mem_cons_self _ _
    · rw [if_neg h2] at h
      exact List.mem_cons_of_mem _ (ih h)

theorem mem_values_dictInsert (k : String) (v q : α) (d : List (String × α))
    (h : q ∈ dictValues (dictInsert k v d)) : q = v ∨ q ∈ dictValues d := by
  induction d with
  | nil => simpa [dictInsert] using h
  | cons hd tl ih =>
    obtain ⟨k2, v2⟩ := hd
    rw [dictInsert_cons] at h
    rw [dictValues_cons]
    by_cases h2 : k2 = k
    · rw [if_pos h2, dictValues_cons, List.mem_cons] at h
      rcases h with h | h
      · exact Or.inl h
      · exact Or.inr (List.mem_cons_of_mem _ h)
    · rw [if_neg h2, dictValues_cons, List.mem_cons] at h
      rcases h with h | h
      · exact Or.inr (h ▸ List.mem_cons_self _ _)
      · rcases ih h with h3 | h3
        · exact Or.inl h3
        · exact Or.inr (List.mem_cons_of_mem _ h3)

theorem mem_keys_dictInsert (k q : String) (v : α) (d : List (String × α))
    (h : q ∈ dictKeys (dictInsert k v d)) : q = k ∨ q ∈ dictKeys d := by
  induction d with
  | nil => simpa [dictInsert] using h
  | cons hd tl ih =>
    obtain ⟨k2, v2⟩ := hd
    rw [dictInsert_cons] at h
    rw [dictKeys_cons]
    by_cases h2 : k2 = k
    · rw [if_pos h2, dictKeys_cons, List.mem_cons] at h
      rcases h with h | h
      · exact Or.inl h
      · exact Or.inr (List.mem_cons_of_mem _ h)
    · rw [if_neg h2, dictKeys_cons, List.mem_cons] at h
      rcases h with h | h
      · exact Or.inr (h ▸ List.mem_cons_self _ _)
      · rcases ih h with h3 | h3
        · exact Or.inl h3
        · exact Or.inr (List.mem_cons_of_mem _ h3)

theorem values_nodup_dictInsert (k : String) (v : α) (d : List (String × α))
    (hnd : (dictValues d).Nodup) (hv : v ∉ dictValues d) :
    (dictValues (dictInsert k v d)).Nodup := by
  induction d with
  | nil => simp [dictInsert]
  | cons hd tl ih =>
    obtain ⟨k2, v2⟩ := hd
    rw [dictValues_cons, List.nodup_cons] at hnd
    rw [dictValues_cons, List.mem_cons] at hv
    push_neg at hv
    rw [dictInsert_cons]
    by_cases h2 : k2 = k
    · rw [if_pos h2, dictValues_cons, List.nodup_cons]
      exact ⟨hv.2, hnd.2⟩
    · rw [if_neg h2, dictValues_cons, List.nodup_cons]
      refine ⟨fun hmem => ?_, ih hnd.2 hv.2⟩
      rcases mem_values_dictInsert k v v2 tl hmem with h3 | h3
      · exact hv.1 h3.symm
      · exact hnd.1 h3

theorem keys_nodup_dictInsert (k : String) (v : α) (d : List (String × α))
    (hnd : (dictKeys d).Nodup) : (dictKeys (dictInsert k v d)).Nodup := by
  induction d with
  | nil => simp [dictInsert]
  | cons hd tl ih =>
    obtain ⟨k2, v2⟩ := hd
    rw [dictKeys_cons, List.nodup_cons] at hnd
    rw [dictInsert_cons]
    by_cases h2 : k2 = k
    · rw [if_pos h2, dictKeys_cons, List.nodup_cons]
      exact ⟨h2 ▸ hnd.1, hnd.2⟩
    · rw [if_neg h2, dictKeys_cons, List.nodup_cons]
      refine ⟨fun hmem => ?_, ih hnd.2⟩
      rcases mem_keys_dictInsert k k2 v tl hmem with h3 | h3
      · exact h2 h3
      · exact hnd.1 h3

theorem dictGet_eq_of_values_nodup (k k2 : String) (v : α) (d : List (String × α))
    (hnd : (dictValues d).Nodup) (h1 : dictGet k d = some v) (h2 : dictGet k2 d = some v) :
    k = k2 := by
  induction d with
  | nil => simp [dictGet] at h1
  | cons hd tl ih =>
    obtain ⟨k3, v3⟩ := hd
    rw [dictValues_cons, List.nodup_cons] at hnd
    rw [dictGet_cons] at h1 h2
    by_cases h3 : k3 = k
    · by_cases h4 : k3 = k2
      · exact h3.symm.trans h4
      · rw [if_pos h3] at h1
        rw [if_neg h4] at h2
        injection h1 with h1
        exact absurd (dictGet_mem_values k2 v tl h2) (h1 ▸ hnd.1)
    · by_cases h4 : k3 = k2
      · rw [if_pos h4] at h2
        rw [if_neg h3] at h1
        injection h2 with h2
        exact absurd (dictGet_mem_values k v tl h1) (h2 ▸ hnd.1)
      · rw [if_neg h3] at h1
        rw [if_neg h4] at h2
        exact ih hnd.2 h1 h2

theorem dictGet_map (f : α → β) (k : String) (d : List (String × α)) :
    dictGet k (d.map (fun nv => (nv.1, f nv.2))) = (dictGet k d).map f := by
  induction d with
  | nil => rfl
  | cons hd tl ih =>
    obtain ⟨k2, v⟩ := hd
    by_cases h : k2 = k <;> simp [dictGet, h, ih]

end DictLemmas

/-! ## MQTT service bus (`src/infrastructure/mqtt_service_bus.py`)

JSON payloads are modelled by the inductive `Json`; Python exceptions raised
by a handler are modelled by `Except String`.  `uuid.uuid4()` is modelled by
a counter in the bus state producing fresh identifiers.  Handlers carry a
numeric identity `hid` so that theorems can speak about *which* registered
callback was dispatched; an execution trace of dispatched callbacks is kept
in `BusState.invoked`. -/

mutual

inductive Json where
  | null
  | str (s : String)
  | num (n : Int)
  | obj (fields : JsonFields)
  deriving DecidableEq, Repr

inductive JsonFields where
  | nil
  | cons (key : String) (value : Json) (rest : JsonFields)
  deriving DecidableEq, Repr

end

/-- Python `{"error": msg}` payload used by the bus on all error paths. -/
def errPayload (msg : String) : Json := Json.obj (.cons "error" (.str msg) .nil)

inductive MessageType where
  | request
  | response
  | event
  | health_check
  deriving DecidableEq, Repr

/-- `ServiceMessage` dataclass.  The wall-clock `timestamp` is modelled as a
`Nat` and plays no role in any claim. -/
structure ServiceMessage where
  message_id : String
  message_type : MessageType
  service_name : String
  method : String
  payload : Json
  response_topic : Option String := none
  timestamp : Nat := 0
  correlation_id : Option String := none
  deriving DecidableEq, Repr

/-- A registered handler: the Python callable, tagged with an identity so
dispatch can be observed. -/
structure Handler where
  hid : Nat
  run : Json → Except String Json

/-- State of one `MQTTServiceBus` instance.  `pending_requests` maps a
message id to its `threading.Event` (modelled by `Bool`: set or not);
`published` records every `client.publish` in order; `invoked` records the
identity of every handler the bus has executed. -/
structure BusState where
  message_handlers : List (String × Handler)
  pending_requests : List (String × Bool)
  request_responses : List (String × Json)
  published : List (String × ServiceMessage)
  invoked : List Nat
  uuidCounter : Nat

def emptyBus : BusState :=
  { message_handlers := [], pending_requests := [], request_responses := []
    published := [], invoked := [], uuidCounter := 0 }

/-- Model of `uuid.uuid4()`: a fresh identifier from the state counter. -/
def freshId (st : BusState) : String × BusState :=
  ("uuid-" ++ toString st.uuidCounter, { st with uuidCounter := st.uuidCounter + 1 })

/-- `MQTTServiceBus._send_message`: serialize and publish. -/
def send_message (st : BusState) (topic : String) (msg : ServiceMessage) : BusState :=
  { st with published := st.published ++ [(topic, msg)] }

/-- `MQTTServiceBus.register_handler`. -/
def register_handler (st : BusState) (service_name method : String) (h : Handler) : BusState :=
  { st with message_handlers :=
      dictInsert (service_name ++ "." ++ method) h st.message_handlers }

/-- `MQTTServiceBus.register_event_handler`. -/
def register_event_handler (st : BusState) (service_name event_name : String) (h : Handler) :
    BusState :=
  { st with message_handlers :=
      dictInsert ("event." ++ service_name ++ "." ++ event_name) h st.message_handlers }

/-- `MQTTServiceBus._execute_handler`.  The whole body sits in a
`try/except`; a missing key raises `KeyError` and a handler raising is
`Except.error`, and both are converted into an error RESPONSE when the
request carries a `response_topic`. -/
def execute_handler (st : BusState) (handler_key : String) (msg : ServiceMessage) : BusState :=
  match dictGet handler_key st.message_handlers with
  | none =>
    -- KeyError on handler lookup, caught by the except block
    match msg.response_topic with
    | some rt =>
      let (mid, st1) := freshId st
      send_message st1 rt
        { message_id := mid, message_type := .response, service_name := msg.service_name
          method := "error", payload := errPayload handler_key
          correlation_id := some msg.message_id }
    | none => st
  | some h =>
    let st0 := { st with invoked := st.invoked ++ [h.hid] }
    match h.run msg.payload with
    | .ok result =>
      match msg.response_topic with
      | some rt =>
        let (mid, st1) := freshId st0
        send_message st1 rt
          { message_id := mid, message_type := .response, service_name := msg.service_name
            method := msg.method, payload := result
            correlation_id := some msg.message_id }
      | none => st0
    | .error e =>
      match msg.response_topic with
      | some rt =>
        let (mid, st1) := freshId st0
        send_message st1 rt
          { message_id := mid, message_type := .response, service_name := msg.service_name
            method := "error", payload := errPayload e
            correlation_id := some msg.message_id }
      | none => st0

/-- `MQTTServiceBus._handle_service_request`: dispatch to the registered
handler, or synthesize an error RESPONSE when none is registered. -/
def handle_service_request (st : BusState) (msg : ServiceMessage) : BusState :=
  let handler_key := msg.service_name ++ "." ++ msg.method
  if (dictGet handler_key st.message_handlers).isSome then
    execute_handler st handler_key msg
  else
    match msg.response_topic with
    | some rt =>
      let (mid, st1) := freshId st
      send_message st1 rt
        { message_id := mid, message_type := .response, service_name := "service_bus"
          method := "error", payload := errPayload ("No handler for " ++ handler_key)
          correlation_id := some msg.message_id }
    | none => st

/-- `MQTTServiceBus._handle_response`: store the payload and signal the
waiting caller if the correlation id is pending; otherwise discard. -/
def handle_response (st : BusState) (msg : ServiceMessage) : BusState :=
  match msg.correlation_id with
  | none => st
  | some cid =>
    if (dictGet cid st.pending_requests).isSome then
      { st with
        request_responses := dictInsert cid msg.payload st.request_responses
        pending_requests := dictInsert cid true st.pending_requests }
    else st

/-- `MQTTServiceBus._handle_event`: dispatch to the registered event
handler, if any. -/
def handle_event (st : BusState) (msg : ServiceMessage) : BusState :=
  let event_key := "event." ++ msg.service_name ++ "." ++ msg.method
  if (dictGet event_key st.message_handlers).isSome then
    execute_handler st event_key msg
  else st

def responseTopic (base mid : String) : String := base ++ "/responses/" ++ mid

/-- First half of `MQTTServiceBus.call_service`: create the pending entry
(whose `threading.Event` starts unset) and publish the REQUEST. -/
def call_service_publish (st : BusState) (base service method : String) (payload : Json)
    (mid : String) : BusState × ServiceMessage :=
  let req : ServiceMessage :=
    { message_id := mid, message_type := .request, service_name := service
      method := method, payload := payload, response_topic := some (responseTopic base mid) }
  let st1 := { st with pending_requests := dictInsert mid false st.pending_requests }
  (send_message st1 (base ++ "/services/" ++ service ++ "/" ++ method) req, req)

/-- Second half of `MQTTServiceBus.call_service`: `response_event.wait` —
if the event was signalled, read and clean up and return the payload;
otherwise clean up and raise `TimeoutError`. -/
def call_service_wait (st : BusState) (service method mid : String) :
    Except String Json × BusState :=
  if dictGet mid st.pending_requests = some true then
    let response := (dictGet mid st.request_responses).getD Json.null
    (.ok response,
      { st with
        pending_requests := dictErase mid st.pending_requests
        request_responses := dictErase mid st.request_responses })
  else
    (.error ("Service call to " ++ service ++ "." ++ method ++ " timed out"),
      { st with pending_requests := dictErase mid st.pending_requests })

/-- `MQTTServiceBus.call_service` with the broker abstracted: `arrival` is
the inbound message (if any) delivered on the response topic while the
caller blocks; `none` means nothing arrived before the timeout. -/
def call_service (st : BusState) (base service method : String) (payload : Json) (mid : String)
    (arrival : Option ServiceMessage) : Except String Json × BusState :=
  let pub := call_service_publish st base service method payload mid
  let st2 := match arrival with
    | some m => handle_response pub.1 m
    | none => pub.1
  call_service_wait st2 service method mid

/-- `MQTTServiceBus.call_service` against a bus that itself hosts the target
service: the published REQUEST is routed through `_handle_service_request`,
every message the bus publishes on the call's response topic is routed
through `_handle_response`, and the caller then wakes up. -/
def call_service_local (st : BusState) (base service method : String) (payload : Json)
    (mid : String) : Except String Json × BusState :=
  let pub := call_service_publish st base service method payload mid
  let st2 := handle_service_request pub.1 pub.2
  let newMsgs := (st2.published.drop pub.1.published.length).filter
    (fun tm => tm.1 = responseTopic base mid)
  let st3 := newMsgs.foldl (fun s tm => handle_response s tm.2) st2
  call_service_wait st3 service method mid

/-! ## Service manager (`src/infrastructure/service_manager.py`)

The low-level socket bind probe `is_port_available` is modelled as an
oracle `avail : Nat → Bool`; the HTTP probe in `HealthChecker.check_health`
as an oracle `check : String → Bool` on the health URL; `subprocess.Popen`
as an oracle `Except String Nat` (exception or pid); and the
`wait_for_health` polling loop outcome as an oracle `Bool`.  A raised
Python exception is modelled as an `Option`/`Except` failure value;
`PortManager.allocate_port` raising `RuntimeError` becomes `none`. -/

structure PortManager where
  start_port : Nat
  end_port : Nat
  allocated_ports : List (String × Nat)
  reserved_ports : List Nat
  deriving Repr

def PortManager.init : PortManager :=
  { start_port := 8000, end_port := 9000, allocated_ports := []
    reserved_ports := [8030, 3030, 3040, 3050] }

/-- The `for port in range(start_port, end_port)` scan of
`PortManager.allocate_port`: skip reserved ports and ports already in
`allocated_ports.values()`, accept the first port whose bind probe
succeeds. -/
def findPort (reserved : List Nat) (allocatedVals : List Nat) (avail : Nat → Bool) :
    List Nat → Option Nat
  | [] => none
  | p :: rest =>
    if p ∈ reserved then findPort reserved allocatedVals avail rest
    else if p ∈ allocatedVals then findPort reserved allocatedVals avail rest
    else if avail p then some p
    else findPort reserved allocatedVals avail rest

/-- The fresh-port branch of `PortManager.allocate_port`; `none` models the
`RuntimeError` raised when the range is exhausted. -/
def allocFresh (pm : PortManager) (avail : Nat → Bool) (service_name : String) :
    Option (Nat × PortManager) :=
  match findPort pm.reserved_ports (dictValues pm.allocated_ports) avail
      (List.range' pm.start_port (pm.end_port - pm.start_port)) with
  | some p =>
    some (p, { pm with allocated_ports := dictInsert service_name p pm.allocated_ports })
  | none => none

/-- `PortManager.allocate_port`: reuse the service's recorded port when the
bind probe still succeeds on it, otherwise scan for a fresh one. -/
def allocate_port (pm : PortManager) (avail : Nat → Bool) (service_name : String) :
    Option (Nat × PortManager) :=
  match dictGet service_name pm.allocated_ports with
  | some port =>
    if avail port then some (port, pm) else allocFresh pm avail service_name
  | none => allocFresh pm avail service_name

/-- `PortManager.free_port`. -/
def free_port (pm : PortManager) (service_name : String) : PortManager :=
  { pm with allocated_ports := dictErase service_name pm.allocated_ports }

/-- `ServiceConfig` dataclass. -/
structure ServiceConfig where
  name : String
  command : List String
  working_dir : String
  port : Option Nat := none
  health_endpoint : String := "/health"
  environment : Option (List (String × String)) := none
  dependencies : Option (List String) := none
  deriving DecidableEq, Repr

inductive ServiceStatus where
  | stopped
  | starting
  | running
  | error
  deriving DecidableEq, Repr

/-- `ServiceStatus(...).value`. -/
def ServiceStatus.value : ServiceStatus → String
  | .stopped => "stopped"
  | .starting => "starting"
  | .running => "running"
  | .error => "error"

/-- `ServiceStatus(s)` — raises `ValueError` (here `none`) on an unknown
string. -/
def statusOfString (s : String) : Option ServiceStatus :=
  if s = "stopped" then some .stopped
  else if s = "starting" then some .starting
  else if s = "running" then some .running
  else if s = "error" then some .error
  else none

/-- `ServiceInfo` dataclass (start timestamps as `Nat`). -/
structure ServiceInfo where
  config : ServiceConfig
  status : ServiceStatus
  pid : Option Nat := none
  port : Option Nat := none
  started_at : Option Nat := none
  health_url : Option String := none
  deriving DecidableEq, Repr

/-- One value of the on-disk registry document, keyed by service name.
`good` carries the fields `load_registry` reads (`config`,
`status`/absent, `port`, `pid`, plus the saved `started_at` it ignores);
`malformed` is an entry on which reconstruction raises
(`ServiceConfig(**...)` or similar). -/
inductive EntryData where
  | good (config : ServiceConfig) (status : Option String) (port : Option Nat)
      (pid : Option Nat) (started_at : Option Nat)
  | malformed
  deriving DecidableEq, Repr

/-- The `for name, service_data in data.items()` loop of
`ServiceRegistry.load_registry`, starting from the already-populated
`self.services` dict `acc`.  The surrounding `try/except` means that the
first entry that fails to reconstruct stops the loop, keeping every entry
inserted before it. -/
def loadLoop (acc : List (String × ServiceInfo)) :
    List (String × EntryData) → List (String × ServiceInfo)
  | [] => acc
  | (_, .malformed) :: _ => acc
  | (name, .good c st p pid _) :: rest =>
    match statusOfString (st.getD "stopped") with
    | none => acc
    | some status =>
      loadLoop
        (dictInsert name
          { config := c, status := status, port := p, pid := pid,
            started_at := none, health_url := none } acc)
        rest

/-- `ServiceRegistry.load_registry` as run by `__init__` on a fresh
instance: `none` models a missing file or a file whose JSON parse fails
before any entry is produced. -/
def load_registry (file : Option (List (String × EntryData))) : List (String × ServiceInfo) :=
  match file with
  | none => []
  | some entries => loadLoop [] entries

/-- `ServiceRegistry.save_registry`: the document written to disk. -/
def save_registry (services : List (String × ServiceInfo)) : List (String × EntryData) :=
  services.map fun ni =>
    (ni.1, .good ni.2.config (some ni.2.status.value) ni.2.port ni.2.pid ni.2.started_at)

/-- `ServiceManager` state: the port manager, the registry's in-memory
`services` dict and the `processes` dict (process handle ≈ pid). -/
structure ServiceManager where
  port_manager : PortManager
  registry : List (String × ServiceInfo)
  processes : List (String × Nat)

/-- `ServiceManager.is_service_healthy`; `check` is the HTTP probe oracle
of `HealthChecker.check_health`. -/
def is_service_healthy (sm : ServiceManager) (check : String → Bool) (name : String) : Bool :=
  match dictGet name sm.registry with
  | none => false
  | some info =>
    match info.health_url with
    | none => false
    | some url => check url

/-- The environment of one `ServiceManager.start_service` call: the HTTP
health-probe oracle, the `subprocess.Popen` outcome, the
`wait_for_health` outcome and the current time. -/
structure StartEnv where
  check : String → Bool
  spawn : Except String Nat
  becomes_healthy : Bool
  now : Nat

/-- `ServiceManager.start_service`. -/
def start_service (sm : ServiceManager) (env : StartEnv) (name : String) :
    Bool × ServiceManager :=
  match dictGet name sm.registry with
  | none => (false, sm)
  | some info =>
    if info.status = .running then (true, sm)
    else if ¬ ((info.config.dependencies.getD []).all
        (fun dep => is_service_healthy sm env.check dep)) then
      (false, sm)
    else
      let info1 := { info with status := .starting, started_at := some env.now }
      match env.spawn with
      | .error _ =>
        let info2 := { info1 with status := .error }
        (false, { sm with registry := dictInsert name info2 sm.registry })
      | .ok pid =>
        let info2 := { info1 with pid := some pid }
        let sm2 := { sm with
          registry := dictInsert name info2 sm.registry
          processes := dictInsert name pid sm.processes }
        if env.becomes_healthy then
          (true, { sm2 with registry := dictInsert name { info2 with status := .running } sm2.registry })
        else
          (false, { sm2 with registry := dictInsert name { info2 with status := .error } sm2.registry })

/-- `ServiceManager.stop_service`. -/
def stop_service (sm : ServiceManager) (name : String) : Bool × ServiceManager :=
  match dictGet name sm.registry with
  | none => (false, sm)
  | some info =>
    (true,
      { sm with
        processes := dictErase name sm.processes
        registry := dictInsert name { info with status := .stopped, pid := none } sm.registry
        port_manager := free_port sm.port_manager name })

/-! ## Theorems about the bus -/

/-- Both exit paths of the `response_event.wait` phase of `call_service`
delete the pending entry. -/
theorem call_service_wait_pending (st : BusState) (service method mid : String) :
    dictGet mid (call_service_wait st service method mid).2.pending_requests = none := by
  unfold call_service_wait
  by_cases h : dictGet mid st.pending_requests = some true
  · rw [if_pos h]
    exact dictGet_dictErase_self mid st.pending_requests
  · rw [if_neg h]
    exact dictGet_dictErase_self mid st.pending_requests

/-- C1: on every exit path of `MQTTServiceBus.call_service` — the response
arrives and the payload is returned, or the wait times out and the Timeout
error is raised — the `pending_requests` entry keyed by the request's
message id is removed before the call returns or raises; this holds for an
arbitrary arrival (success, error payload, mismatched correlation, or
nothing) and also for the fully composed local round trip. -/
theorem call_service_removes_pending_entry :
    (∀ (st : BusState) (base service method : String) (payload : Json) (mid : String)
        (arrival : Option ServiceMessage),
      dictGet mid
        (call_service st base service method payload mid arrival).2.pending_requests = none) ∧
    (∀ (st : BusState) (base service method : String) (payload : Json) (mid : String),
      dictGet mid
        (call_service_local st base service method payload mid).2.pending_requests = none) := by
  constructor
  · intro st base service method payload mid arrival
    unfold call_service
    exact call_service_wait_pending _ _ _ _
  · intro st base service method payload mid
    unfold call_service_local
    exact call_service_wait_pending _ _ _ _

/-- C3: a handler that raises is caught by `_execute_handler`, which
publishes an error RESPONSE to the request's reply-to topic, correlated to
the request's message id, with a payload encoding the error. -/
theorem handler_exception_becomes_error_response
    (st : BusState) (key : String) (msg : ServiceMessage) (h : Handler) (rt e : String)
    (hreg : dictGet key st.message_handlers = some h)
    (hrt : msg.response_topic = some rt)
    (herr : h.run msg.payload = .error e) :
    ∃ resp : ServiceMessage,
      (execute_handler st key msg).published = st.published ++ [(rt, resp)] ∧
      resp.message_type = .response ∧
      resp.correlation_id = some msg.message_id ∧
      resp.payload = errPayload e := by
  unfold execute_handler
  simp only [hreg, herr, hrt]
  exact ⟨_, rfl, rfl, rfl, rfl⟩

def failHandler : Handler := ⟨1, fun _ => Except.error "boom"⟩

def busWithFailingHandler : BusState :=
  { emptyBus with message_handlers := [("vin-decoder.decode", failHandler)] }

def failingRequest : ServiceMessage :=
  { message_id := "m1", message_type := .request, service_name := "vin-decoder"
    method := "decode", payload := Json.null
    response_topic := some "motospect/responses/m1" }

/-- Witness for C3 at a concrete bus state, handler and request. -/
theorem handler_exception_becomes_error_response_witness :
    (dictGet "vin-decoder.decode" busWithFailingHandler.message_handlers = some failHandler ∧
      failingRequest.response_topic = some "motospect/responses/m1" ∧
      failHandler.run failingRequest.payload = .error "boom") ∧
    ∃ resp : ServiceMessage,
      (execute_handler busWithFailingHandler "vin-decoder.decode" failingRequest).published =
        busWithFailingHandler.published ++ [("motospect/responses/m1", resp)] ∧
      resp.message_type = .response ∧
      resp.correlation_id = some failingRequest.message_id ∧
      resp.payload = errPayload "boom" :=
  ⟨⟨rfl, rfl, rfl⟩,
    handler_exception_becomes_error_response busWithFailingHandler "vin-decoder.decode"
      failingRequest failHandler "motospect/responses/m1" "boom" rfl rfl rfl⟩

/-- C4: a `call_service` to a `(service, method)` pair with no registered
handler gets a synthesized error RESPONSE correlated to its request and
returns the `No handler` error payload within the single round trip,
instead of timing out. -/
theorem missing_handler_call_returns_error
    (st : BusState) (base service method : String) (payload : Json) (mid : String)
    (hno : dictGet (service ++ "." ++ method) st.message_handlers = none) :
    (call_service_local st base service method payload mid).1 =
      .ok (errPayload ("No handler for " ++ (service ++ "." ++ method))) ∧
    ∃ req resp : ServiceMessage,
      (call_service_local st base service method payload mid).2.published =
        st.published ++ [(base ++ "/services/" ++ service ++ "/" ++ method, req),
          (responseTopic base mid, resp)] ∧
      resp.message_type = .response ∧
      resp.correlation_id = some mid ∧
      resp.payload = errPayload ("No handler for " ++ (service ++ "." ++ method)) := by
  unfold call_service_local call_service_publish handle_service_request
  simp only [hno, Option.isSome_none, Bool.false_eq_true, if_false, send_message, freshId]
  rw [List.drop_left]
  simp only [List.filter_cons, List.filter_nil, List.foldl_cons, List.foldl_nil,
    decide_eq_true_eq, if_pos rfl, handle_response, dictGet_dictInsert_self,
    Option.isSome_some, if_true, call_service_wait, Option.getD_some, List.append_assoc,
    List.cons_append, List.nil_append]
  exact ⟨trivial, _, _, rfl, rfl, rfl, rfl⟩

/-- Witness for C4 at a concrete empty bus. -/
theorem missing_handler_call_returns_error_witness :
    dictGet ("vin-decoder" ++ "." ++ "decode") emptyBus.message_handlers = none ∧
    ((call_service_local emptyBus "motospect" "vin-decoder" "decode" Json.null "m1").1 =
      .ok (errPayload ("No handler for " ++ ("vin-decoder" ++ "." ++ "decode"))) ∧
    ∃ req resp : ServiceMessage,
      (call_service_local emptyBus "motospect" "vin-decoder" "decode" Json.null "m1").2.published =
        emptyBus.published ++ [("motospect" ++ "/services/" ++ "vin-decoder" ++ "/" ++ "decode", req),
          (responseTopic "motospect" "m1", resp)] ∧
      resp.message_type = .response ∧
      resp.correlation_id = some "m1" ∧
      resp.payload = errPayload ("No handler for " ++ ("vin-decoder" ++ "." ++ "decode"))) :=
  ⟨rfl, missing_handler_call_returns_error emptyBus "motospect" "vin-decoder" "decode"
    Json.null "m1" rfl⟩

/-! ### Event handler registration (C7)

`MQTTServiceBus.message_handlers` is a single `Dict[str, Callable]`, so
`register_event_handler` for an already-used `(service, event)` pair
*overwrites* the previous callback, and `_handle_event` dispatches at most
the one surviving callback. -/

def eventHandlerOne : Handler := ⟨1, fun _ => Except.ok Json.null⟩

def eventHandlerTwo : Handler := ⟨2, fun _ => Except.ok Json.null⟩

/-- A bus on which callback 1 and then callback 2 were registered for the
same `("svc", "evt")` pair. -/
def busWithTwoRegistrations : BusState :=
  register_event_handler (register_event_handler emptyBus "svc" "evt" eventHandlerOne)
    "svc" "evt" eventHandlerTwo

def eventForSvc : ServiceMessage :=
  { message_id := "e1", message_type := .event, service_name := "svc", method := "evt"
    payload := Json.null }

/-- Counterexample to C7: after registering callback 1 and then callback 2
for the same `(service, event)` pair, the registry holds only callback 2
(the first registration was discarded), and publishing the event dispatches
only callback 2 — callback 1 is never run. -/
theorem second_event_registration_discards_first :
    dictGet ("event." ++ "svc" ++ "." ++ "evt") busWithTwoRegistrations.message_handlers =
      some eventHandlerTwo ∧
    (handle_event busWithTwoRegistrations eventForSvc).invoked = [2] ∧
    1 ∉ (handle_event busWithTwoRegistrations eventForSvc).invoked := by
  refine ⟨rfl, rfl, ?_⟩
  intro hmem
  simp only [show (handle_event busWithTwoRegistrations eventForSvc).invoked = [2] from rfl,
    List.mem_singleton] at hmem
  exact absurd hmem (by decide)

/-- C7 amended: the handler registry holds at most one event callback per
`(service name, event name)` pair — registering a second callback for the
pair replaces the first — and a published event dispatches exactly the most
recently registered callback. -/
theorem event_dispatch_uses_latest_registration
    (st : BusState) (s e : String) (h1 h2 : Handler) (msg : ServiceMessage)
    (hs : msg.service_name = s) (he : msg.method = e) (hrt : msg.response_topic = none) :
    dictGet ("event." ++ s ++ "." ++ e)
      (register_event_handler (register_event_handler st s e h1) s e h2).message_handlers =
        some h2 ∧
    (handle_event (register_event_handler (register_event_handler st s e h1) s e h2)
        msg).invoked = st.invoked ++ [h2.hid] := by
  constructor
  · unfold register_event_handler
    exact dictGet_dictInsert_self _ _ _
  · unfold handle_event register_event_handler
    simp only [hs, he, dictGet_dictInsert_self, Option.isSome_some, if_true]
    unfold execute_handler
    simp only [dictGet_dictInsert_self, hrt]
    cases h2.run msg.payload <;> rfl

/-! ## Theorems about the port manager (C2) -/

theorem findPort_spec (reserved allocatedVals : List Nat) (avail : Nat → Bool)
    (l : List Nat) (p : Nat) (h : findPort reserved allocatedVals avail l = some p) :
    p ∉ reserved ∧ p ∉ allocatedVals ∧ avail p = true := by
  induction l with
  | nil => simp [findPort] at h
  | cons q rest ih =>
    unfold findPort at h
    by_cases h1 : q ∈ reserved
    · rw [if_pos h1] at h; exact ih h
    · rw [if_neg h1] at h
      by_cases h2 : q ∈ allocatedVals
      · rw [if_pos h2] at h; exact ih h
      · rw [if_neg h2] at h
        by_cases h3 : avail q = true
        · rw [if_pos h3] at h
          injection h with h
          exact h ▸ ⟨h1, h2, h3⟩
        · rw [if_neg h3] at h; exact ih h

/-- The invariant of the port allocation table: no duplicate service
names, no two services share a port, and no allocated port is reserved. -/
def PMInv (pm : PortManager) : Prop :=
  (dictKeys pm.allocated_ports).Nodup ∧
  (dictValues pm.allocated_ports).Nodup ∧
  ∀ p ∈ dictValues pm.allocated_ports, p ∉ pm.reserved_ports

theorem PMInv_init : PMInv PortManager.init := by
  refine ⟨by simp [PortManager.init], by simp [PortManager.init], ?_⟩
  intro p hp
  simp [PortManager.init] at hp

theorem PMInv_allocFresh (pm : PortManager) (avail : Nat → Bool) (s : String) (p : Nat)
    (pm2 : PortManager) (hinv : PMInv pm) (h : allocFresh pm avail s = some (p, pm2)) :
    PMInv pm2 ∧ p ∉ pm.reserved_ports ∧ p ∉ dictValues pm.allocated_ports ∧
      avail p = true := by
  unfold allocFresh at h
  cases hfind : findPort pm.reserved_ports (dictValues pm.allocated_ports) avail
      (List.range' pm.start_port (pm.end_port - pm.start_port)) with
  | none => rw [hfind] at h; exact absurd h (by simp)
  | some q =>
    rw [hfind] at h
    simp only [Option.some.injEq, Prod.mk.injEq] at h
    obtain ⟨rfl, rfl⟩ := h
    obtain ⟨hres, hvals, hav⟩ := findPort_spec _ _ _ _ _ hfind
    refine ⟨⟨keys_nodup_dictInsert _ _ _ hinv.1,
      values_nodup_dictInsert _ _ _ hinv.2.1 hvals, ?_⟩, hres, hvals, hav⟩
    intro r hr
    rcases mem_values_dictInsert s q r _ hr with h3 | h3
    · exact h3 ▸ hres
    · exact hinv.2.2 r h3

theorem allocate_port_spec (pm : PortManager) (avail : Nat → Bool) (s : String) (p : Nat)
    (pm2 : PortManager) (hinv : PMInv pm) (h : allocate_port pm avail s = some (p, pm2)) :
    PMInv pm2 ∧ p ∉ pm.reserved_ports ∧ avail p = true ∧
    (∀ s2, s2 ≠ s → dictGet s2 pm.allocated_ports ≠ some p) := by
  unfold allocate_port at h
  cases hget : dictGet s pm.allocated_ports with
  | none =>
    simp only [hget] at h
    have hf := PMInv_allocFresh pm avail s p pm2 hinv h
    exact ⟨hf.1, hf.2.1, hf.2.2.2,
      fun s2 _ hg => hf.2.2.1 (dictGet_mem_values s2 p _ hg)⟩
  | some q =>
    simp only [hget] at h
    by_cases hav : avail q = true
    · rw [if_pos hav] at h
      simp only [Option.some.injEq, Prod.mk.injEq] at h
      obtain ⟨rfl, rfl⟩ := h
      refine ⟨hinv, hinv.2.2 q (dictGet_mem_values s q _ hget), hav, ?_⟩
      intro s2 hs2 hg
      exact hs2 (dictGet_eq_of_values_nodup s2 s q _ hinv.2.1 hg hget)
    · rw [if_neg hav] at h
      have hf := PMInv_allocFresh pm avail s p pm2 hinv h
      exact ⟨hf.1, hf.2.1, hf.2.2.2,
        fun s2 _ hg => hf.2.2.1 (dictGet_mem_values s2 p _ hg)⟩

theorem PMInv_free (pm : PortManager) (s : String) (hinv : PMInv pm) :
    PMInv (free_port pm s) := by
  have hsub := dictErase_sublist s pm.allocated_ports
  refine ⟨(hsub.map Prod.fst).nodup hinv.1, (hsub.map Prod.snd).nodup hinv.2.1, ?_⟩
  intro p hp
  exact hinv.2.2 p ((hsub.map Prod.snd).subset hp)

/-- The reachable port-manager states: every sequence of `allocate_port`
and `free_port` operations from the initial state, with an arbitrary bind
probe at each step. -/
inductive PMReach : PortManager → Prop where
  | init : PMReach PortManager.init
  | alloc (pm : PortManager) (avail : Nat → Bool) (s : String) (p : Nat)
      (pm2 : PortManager) :
      PMReach pm → allocate_port pm avail s = some (p, pm2) → PMReach pm2
  | free (pm : PortManager) (s : String) : PMReach pm → PMReach (free_port pm s)

theorem PMReach_inv (pm : PortManager) (h : PMReach pm) : PMInv pm := by
  induction h with
  | init => exact PMInv_init
  | alloc pm avail s p pm2 _ halloc ih =>
    exact (allocate_port_spec pm avail s p pm2 ih halloc).1
  | free pm s _ ih => exact PMInv_free pm s ih

/-- C2: in every reachable state of the allocation table no two services
share a port, and whatever port `allocate_port` returns is not reserved,
passes the bind probe, is not currently allocated to a different service,
and leaves the no-sharing invariant intact. -/
theorem allocate_port_safe (pm : PortManager) (hre : PMReach pm) :
    (dictValues pm.allocated_ports).Nodup ∧
    ∀ (avail : Nat → Bool) (s : String) (p : Nat) (pm2 : PortManager),
      allocate_port pm avail s = some (p, pm2) →
      p ∉ pm.reserved_ports ∧ avail p = true ∧
      (∀ s2, s2 ≠ s → dictGet s2 pm.allocated_ports ≠ some p) ∧
      (dictValues pm2.allocated_ports).Nodup := by
  have hinv := PMReach_inv pm hre
  refine ⟨hinv.2.1, ?_⟩
  intro avail s p pm2 h
  have hspec := allocate_port_spec pm avail s p pm2 hinv h
  exact ⟨hspec.2.1, hspec.2.2.1, hspec.2.2.2, hspec.1.2.1⟩

/-- The table after allocating one port to `"api"` from the initial
state. -/
def pmAfterOneAlloc : PortManager :=
  { PortManager.init with allocated_ports := [("api", 8000)] }

/-- Witness for C2 at a concrete reachable state. -/
theorem allocate_port_safe_witness :
    PMReach pmAfterOneAlloc ∧
    ((dictValues pmAfterOneAlloc.allocated_ports).Nodup ∧
    ∀ (avail : Nat → Bool) (s : String) (p : Nat) (pm2 : PortManager),
      allocate_port pmAfterOneAlloc avail s = some (p, pm2) →
      p ∉ pmAfterOneAlloc.reserved_ports ∧ avail p = true ∧
      (∀ s2, s2 ≠ s → dictGet s2 pmAfterOneAlloc.allocated_ports ≠ some p) ∧
      (dictValues pm2.allocated_ports).Nodup) :=
  have hre : PMReach pmAfterOneAlloc :=
    PMReach.alloc PortManager.init (fun _ => true) "api" 8000 pmAfterOneAlloc
      PMReach.init rfl
  ⟨hre, allocate_port_safe pmAfterOneAlloc hre⟩

/-- Witness for the amended C7 at concrete handlers and event. -/
theorem event_dispatch_uses_latest_registration_witness :
    (eventForSvc.service_name = "svc" ∧ eventForSvc.method = "evt" ∧
      eventForSvc.response_topic = none) ∧
    (dictGet ("event." ++ "svc" ++ "." ++ "evt")
      (register_event_handler (register_event_handler emptyBus "svc" "evt" eventHandlerOne)
        "svc" "evt" eventHandlerTwo).message_handlers = some eventHandlerTwo ∧
    (handle_event (register_event_handler
        (register_event_handler emptyBus "svc" "evt" eventHandlerOne)
        "svc" "evt" eventHandlerTwo) eventForSvc).invoked =
      emptyBus.invoked ++ [eventHandlerTwo.hid]) :=
  ⟨⟨rfl, rfl, rfl⟩,
    event_dispatch_uses_latest_registration emptyBus "svc" "evt" eventHandlerOne
      eventHandlerTwo eventForSvc rfl rfl rfl⟩

/-! ## Theorems about the service manager (C5, C6, C9) -/

/-- C5: `start_service` on a registered, non-running service one of whose
declared dependencies reports unhealthy fails and changes nothing: the
whole manager state — registry, process table, port table — is returned
untouched, so no process is spawned and no pid recorded. -/
theorem unhealthy_dependency_blocks_start
    (sm : ServiceManager) (env : StartEnv) (name dep : String) (info : ServiceInfo)
    (hget : dictGet name sm.registry = some info)
    (hnotrun : info.status ≠ .running)
    (hdep : dep ∈ info.config.dependencies.getD [])
    (hunhealthy : is_service_healthy sm env.check dep = false) :
    start_service sm env name = (false, sm) := by
  unfold start_service
  simp only [hget]
  rw [if_neg hnotrun]
  have hall : ¬ ((info.config.dependencies.getD []).all
      (fun d => is_service_healthy sm env.check d) = true) := by
    intro hall
    have h2 := List.all_eq_true.mp hall dep hdep
    rw [hunhealthy] at h2
    exact absurd h2 (by simp)
  rw [if_pos hall]

def depConfig : ServiceConfig :=
  { name := "backend", command := ["python", "app.py"], working_dir := "/app"
    dependencies := some ["db"] }

def depInfo : ServiceInfo :=
  { config := depConfig, status := .stopped, port := some 8000
    health_url := some "http://localhost:8000/health" }

def smWithDep : ServiceManager :=
  { port_manager := PortManager.init, registry := [("backend", depInfo)], processes := [] }

def envIdle : StartEnv :=
  { check := fun _ => false, spawn := .ok 4242, becomes_healthy := true, now := 17 }

/-- Witness for C5: `"backend"` depends on `"db"`, which is not even
registered, so its health probe reports false. -/
theorem unhealthy_dependency_blocks_start_witness :
    (dictGet "backend" smWithDep.registry = some depInfo ∧
      depInfo.status ≠ .running ∧
      "db" ∈ depInfo.config.dependencies.getD [] ∧
      is_service_healthy smWithDep envIdle.check "db" = false) ∧
    start_service smWithDep envIdle "backend" = (false, smWithDep) :=
  ⟨⟨rfl, by decide, by decide, rfl⟩,
    unhealthy_dependency_blocks_start smWithDep envIdle "backend" "db" depInfo rfl
      (by decide) (by decide) rfl⟩

/-- C6: `start_service` on a RUNNING service returns success and leaves
the manager state — registry entry (status, pid, port), process table,
port table — unchanged, so a second consecutive call also returns success
with no new process. -/
theorem start_running_service_idempotent
    (sm : ServiceManager) (env env2 : StartEnv) (name : String) (info : ServiceInfo)
    (hget : dictGet name sm.registry = some info)
    (hrun : info.status = .running) :
    start_service sm env name = (true, sm) ∧
    start_service (start_service sm env name).2 env2 name = (true, sm) := by
  have h1 : start_service sm env name = (true, sm) := by
    unfold start_service
    simp only [hget]
    rw [if_pos hrun]
  refine ⟨h1, ?_⟩
  rw [h1]
  unfold start_service
  simp only [hget]
  rw [if_pos hrun]

def runningInfo : ServiceInfo :=
  { config := { name := "gateway", command := ["./gateway"], working_dir := "/srv" }
    status := .running, pid := some 4000, port := some 8001
    health_url := some "http://localhost:8001/health" }

def smWithRunning : ServiceManager :=
  { port_manager := PortManager.init, registry := [("gateway", runningInfo)]
    processes := [("gateway", 4000)] }

/-- Witness for C6 at a concrete RUNNING service. -/
theorem start_running_service_idempotent_witness :
    (dictGet "gateway" smWithRunning.registry = some runningInfo ∧
      runningInfo.status = .running) ∧
    (start_service smWithRunning envIdle "gateway" = (true, smWithRunning) ∧
      start_service (start_service smWithRunning envIdle "gateway").2 envIdle "gateway" =
        (true, smWithRunning)) :=
  ⟨⟨rfl, rfl⟩,
    start_running_service_idempotent smWithRunning envIdle envIdle "gateway" runningInfo
      rfl rfl⟩

/-- C9: `stop_service` on a registered name (whether or not a process is
tracked) returns True, sets the registry entry to STOPPED with pid None,
frees its port-table entry and drops its process-table entry; on an
unregistered name it returns False and leaves the whole state unchanged. -/
theorem stop_service_spec (sm : ServiceManager) (name : String) :
    (dictGet name sm.registry = none → stop_service sm name = (false, sm)) ∧
    (∀ info, dictGet name sm.registry = some info →
      (stop_service sm name).1 = true ∧
      dictGet name (stop_service sm name).2.registry =
        some { info with status := .stopped, pid := none } ∧
      dictGet name (stop_service sm name).2.port_manager.allocated_ports = none ∧
      dictGet name (stop_service sm name).2.processes = none) := by
  constructor
  · intro hnone
    unfold stop_service
    simp only [hnone]
  · intro info hget
    unfold stop_service
    simp only [hget]
    exact ⟨trivial, dictGet_dictInsert_self name _ sm.registry,
      dictGet_dictErase_self name sm.port_manager.allocated_ports,
      dictGet_dictErase_self name sm.processes⟩

/-- Witness for C9: stopping the registered-but-never-started
`"backend"` service. -/
theorem stop_service_spec_witness :
    dictGet "backend" smWithDep.registry = some depInfo ∧
    ((stop_service smWithDep "backend").1 = true ∧
      dictGet "backend" (stop_service smWithDep "backend").2.registry =
        some { depInfo with status := .stopped, pid := none } ∧
      dictGet "backend" (stop_service smWithDep "backend").2.port_manager.allocated_ports =
        none ∧
      dictGet "backend" (stop_service smWithDep "backend").2.processes = none) :=
  ⟨rfl, (stop_service_spec smWithDep "backend").2 depInfo rfl⟩

/-! ## Theorems about the registry file (C8, C10) -/

/-- What `load_registry` reconstructs from one saved `ServiceInfo`:
config, status, port and pid survive; `started_at` and `health_url` are
not read back. -/
def restoreInfo (info : ServiceInfo) : ServiceInfo :=
  { config := info.config, status := info.status, port := info.port, pid := info.pid
    started_at := none, health_url := none }

theorem statusOfString_value (s : ServiceStatus) : statusOfString s.value = some s := by
  cases s <;> rfl

theorem dictKeys_append {α : Type u} (d1 d2 : List (String × α)) :
    dictKeys (d1 ++ d2) = dictKeys d1 ++ dictKeys d2 := by
  simp [dictKeys]

theorem loadLoop_save (reg : List (String × ServiceInfo)) :
    ∀ acc : List (String × ServiceInfo), (dictKeys reg).Nodup →
    (∀ n ∈ dictKeys reg, n ∉ dictKeys acc) →
    loadLoop acc (save_registry reg) = acc ++ reg.map fun ni => (ni.1, restoreInfo ni.2) := by
  induction reg with
  | nil => intro acc _ _; simp [save_registry, loadLoop]
  | cons hd tl ih =>
    intro acc hnd hdisj
    obtain ⟨n, info⟩ := hd
    rw [dictKeys_cons, List.nodup_cons] at hnd
    show loadLoop acc
      ((n, .good info.config (some info.status.value) info.port info.pid info.started_at)
        :: save_registry tl) = _
    rw [loadLoop]
    simp only [Option.getD_some, statusOfString_value]
    have hn : n ∉ dictKeys acc := hdisj n (List.mem_cons_self _ _)
    rw [dictInsert_of_not_mem_keys n _ acc hn]
    have hL : ({ config := info.config, status := info.status, pid := info.pid
                 port := info.port, started_at := none, health_url := none } : ServiceInfo) =
        restoreInfo info := rfl
    rw [hL]
    have hdisj2 : ∀ m ∈ dictKeys tl, m ∉ dictKeys (acc ++ [(n, restoreInfo info)]) := by
      intro m hm
      rw [dictKeys_append, List.mem_append]
      push_neg
      refine ⟨hdisj m (List.mem_cons_of_mem _ hm), ?_⟩
      intro hmem
      simp only [dictKeys_cons, dictKeys_nil, List.mem_singleton] at hmem
      exact hnd.1 (hmem ▸ hm)
    rw [ih (acc ++ [(n, restoreInfo info)]) hnd.2 hdisj2]
    simp [restoreInfo]

/-- C8: saving the registry and loading it in a fresh instance reproduces
exactly the same service names, each mapped to an equal `ServiceConfig`,
equal status, and the last-known port and pid. -/
theorem registry_round_trip (reg : List (String × ServiceInfo))
    (hnd : (dictKeys reg).Nodup) (name : String) :
    dictGet name (load_registry (some (save_registry reg))) =
      (dictGet name reg).map restoreInfo := by
  show dictGet name (loadLoop [] (save_registry reg)) = (dictGet name reg).map restoreInfo
  rw [loadLoop_save reg [] hnd (by intro n _; simp)]
  rw [List.nil_append]
  exact dictGet_map restoreInfo name reg

def savedReg : List (String × ServiceInfo) :=
  [("backend", depInfo), ("gateway", runningInfo)]

/-- Witness for C8 on a concrete two-service registry. -/
theorem registry_round_trip_witness :
    (dictKeys savedReg).Nodup ∧
    dictGet "gateway" (load_registry (some (save_registry savedReg))) =
      (dictGet "gateway" savedReg).map restoreInfo :=
  ⟨by decide, registry_round_trip savedReg (by decide) "gateway"⟩

/-- Whether one registry-file entry reconstructs without raising: it must
not be `malformed` and its status string must parse. -/
def entryParses : String × EntryData → Bool
  | (_, .malformed) => false
  | (_, .good _ st _ _ _) => (statusOfString (st.getD "stopped")).isSome

theorem loadLoop_append (goods l2 : List (String × EntryData)) :
    ∀ acc : List (String × ServiceInfo), (∀ e ∈ goods, entryParses e = true) →
    loadLoop acc (goods ++ l2) = loadLoop (loadLoop acc goods) l2 := by
  induction goods with
  | nil => intro acc _; rfl
  | cons hd tl ih =>
    intro acc hgoods
    obtain ⟨n, e⟩ := hd
    cases e with
    | malformed =>
      exact absurd (hgoods (n, .malformed) (List.mem_cons_self _ _)) (by simp [entryParses])
    | good c st p pid sa =>
      have hp := hgoods (n, .good c st p pid sa) (List.mem_cons_self _ _)
      rw [show entryParses (n, .good c st p pid sa) =
        (statusOfString (st.getD "stopped")).isSome from rfl] at hp
      cases hst : statusOfString (st.getD "stopped") with
      | none => rw [hst] at hp; exact absurd hp (by simp)
      | some status =>
        rw [List.cons_append, loadLoop, hst, loadLoop, hst]
        exact ih _ (fun e he => hgoods e (List.mem_cons_of_mem _ he))

theorem loadLoop_stops (bad : String × EntryData) (rest : List (String × EntryData))
    (acc : List (String × ServiceInfo)) (hbad : entryParses bad = false) :
    loadLoop acc (bad :: rest) = acc := by
  obtain ⟨n, e⟩ := bad
  cases e with
  | malformed => rfl
  | good c st p pid sa =>
    rw [show entryParses (n, .good c st p pid sa) =
      (statusOfString (st.getD "stopped")).isSome from rfl] at hbad
    cases hst : statusOfString (st.getD "stopped") with
    | none => rw [loadLoop, hst]
    | some status => rw [hst] at hbad; exact absurd hbad (by simp)

/-- C10: constructing a registry from any file content never fails: a
file whose JSON does not parse yields the empty table, and a file whose
entries fail to reconstruct partway through yields exactly the entries
successfully parsed before the failure. -/
theorem load_registry_total_and_keeps_prefix
    (goods : List (String × EntryData)) (bad : String × EntryData)
    (rest : List (String × EntryData))
    (hgoods : ∀ e ∈ goods, entryParses e = true) (hbad : entryParses bad = false) :
    load_registry none = [] ∧
    load_registry (some (goods ++ bad :: rest)) = load_registry (some goods) := by
  refine ⟨rfl, ?_⟩
  show loadLoop [] (goods ++ bad :: rest) = loadLoop [] goods
  rw [loadLoop_append goods (bad :: rest) [] hgoods]
  exact loadLoop_stops bad rest _ hbad

/-- Witness for C10: one well-formed entry followed by a malformed one
and further garbage. -/
theorem load_registry_total_and_keeps_prefix_witness :
    ((∀ e ∈ [("backend", EntryData.good depConfig (some "stopped") (some 8000) none none)],
        entryParses e = true) ∧
      entryParses ("junk", EntryData.malformed) = false) ∧
    (load_registry none = [] ∧
      load_registry (some ([("backend", EntryData.good depConfig (some "stopped") (some 8000) none none)]
          ++ ("junk", EntryData.malformed) :: [("late", EntryData.malformed)])) =
        load_registry (some [("backend", EntryData.good depConfig (some "stopped") (some 8000) none none)])) :=
  ⟨⟨by decide, rfl⟩,
    load_registry_total_and_keeps_prefix
      [("backend", EntryData.good depConfig (some "stopped") (some 8000) none none)]
      ("junk", EntryData.malformed) [("late", EntryData.malformed)] (by decide) rfl⟩

end Motospect
